import Mathlib

/-!
Verification development for the frequency-backend session-cached
aggregation core.  The definitions below are shallow embeddings of the
TypeScript source (src/src/myfxbook/myfxbook.service.ts, the cache
service, and src/common/utils/session.utils.ts): loops become folds or
structural recursions, JavaScript numbers become `Rat`, fallible code
returns `Except`, and the upstream / cache collaborators are passed in
as explicit environment values.  Theorems at the end settle the frozen
claims about this code.
-/

namespace Frequency

/-- NestJS HttpException, reduced to its message and HTTP status code. -/
structure HttpError where
  message : String
  status : Nat
deriving DecidableEq, Repr

deriving instance DecidableEq for Except

/-- One upstream HTTP call: either the credential login or an
authenticated endpoint call. -/
inductive UpCall where
  | loginCall : UpCall
  | apiCall (endpoint : String) : UpCall
deriving DecidableEq, Repr

/-- JavaScript `Number(x.toFixed(2))`: round to two decimal places
(half away from zero for the nonnegative values the service produces). -/
def round2 (q : Rat) : Rat := (round (q * 100) : Int) / 100

/-- JavaScript `Math.round`: round half toward positive infinity. -/
def jsRound (q : Rat) : Int := round q

/-! ## CacheService.generateKey (cache.service.ts)

`generateKey(prefix, ...params)` maps each parameter through
`String(p).replace(/[^a-zA-Z0-9]/g, '_')`, joins the results with `:`
and prepends the prefix followed by `:`. -/

/-- `String(p).replace(/[^a-zA-Z0-9]/g, '_')`: every character that is
not a latin letter or digit becomes an underscore. -/
def sanitizeParam (p : String) : String :=
  ⟨p.data.map (fun c => if c.isAlphanum then c else '_')⟩

/-- JavaScript `Array.prototype.join(':')`. -/
def joinColon : List String → String
  | [] => ""
  | [s] => s
  | s :: rest => s ++ ":" ++ joinColon rest

/-- `CacheService.generateKey`.  Parameters are taken after the JS
string coercion `String(p)`. -/
def generateKey (pre : String) (params : List String) : String :=
  pre ++ ":" ++ joinColon (params.map sanitizeParam)

/-! ## Calendar helpers (myfxbook.service.ts lines 1157-1192)

JavaScript `Date` values at local midnight are modelled by the civil
day number (days since 1970-01-01), using the standard civil-calendar
conversion.  `Date.prototype.getDay` is day-of-week with 0 = Sunday. -/

/-- Days from 1970-01-01 of the civil date y-m-d (m is 1 to 12); the
standard era/year-of-era computation.  Divisions stay on nonnegative
operands except the era division, which truncates toward zero exactly
as the source language does. -/
def daysFromCivil (y m d : Int) : Int :=
  let y2 := if m ≤ 2 then y - 1 else y
  let era := Int.tdiv (if 0 ≤ y2 then y2 else y2 - 399) 400
  let yoe := y2 - era * 400
  let mp := (m + 9) % 12
  let doy := (153 * mp + 2) / 5 + d - 1
  let doe := yoe * 365 + yoe / 4 - yoe / 100 + doy
  era * 146097 + doe - 719468

/-- Inverse of `daysFromCivil`. -/
def civilFromDays (z0 : Int) : Int × Int × Int :=
  let z := z0 + 719468
  let era := Int.tdiv (if 0 ≤ z then z else z - 146096) 146097
  let doe := z - era * 146097
  let yoe := (doe - doe / 1460 + doe / 36524 - doe / 146096) / 365
  let y := yoe + era * 400
  let doy := doe - (365 * yoe + yoe / 4 - yoe / 100)
  let mp := (5 * doy + 2) / 153
  let d := doy - (153 * mp + 2) / 5 + 1
  let m := mp + (if mp < 10 then 3 else -9)
  (y + (if m ≤ 2 then 1 else 0), m, d)

/-- `Date.prototype.getDay`: 0 = Sunday .. 6 = Saturday
(1970-01-01 was a Thursday, weekday 4). -/
def dayOfWeekDn (dn : Int) : Int := (dn + 4) % 7

/-- `getStartOfWeek` at the day-number level.  The source computes
`diff = d.getDate() - day + (day === 0 ? -6 : 1)` and `setDate(diff)`;
setting the day-of-month to `diff` shifts the day number by
`diff - getDate()`, i.e. by `-day + (day === 0 ? -6 : 1)`. -/
def startOfWeekDn (dn : Int) : Int :=
  let day := dayOfWeekDn dn
  dn - day + (if day = 0 then -6 else 1)

/-- `getStartOfWeek` on civil dates. -/
def getStartOfWeek (y m d : Int) : Int × Int × Int :=
  civilFromDays (startOfWeekDn (daysFromCivil y m d))

/-- `getStartOfMonth`: `new Date(date.getFullYear(), date.getMonth(), 1)`
(the source's 0-based month index is rendered 1-based here). -/
def getStartOfMonth (y m _d : Int) : Int × Int × Int := (y, m, 1)

/-- `getStartOfYear`: `new Date(date.getFullYear(), 0, 1)`. -/
def getStartOfYear (y _m _d : Int) : Int × Int × Int := (y, 1, 1)

/-- `String(n).padStart(2, '0')` for the month and day components. -/
def pad2 (n : Int) : String :=
  if n < 10 then "0" ++ toString n else toString n

/-- `formatDate`: `YYYY-MM-DD`. -/
def formatDate (ymd : Int × Int × Int) : String :=
  toString ymd.1 ++ "-" ++ pad2 ymd.2.1 ++ "-" ++ pad2 ymd.2.2

/-! ## Lemmas about generateKey -/

theorem sanitizeParam_colonFree (p : String) : ':' ∉ (sanitizeParam p).data := by
  intro h
  simp only [sanitizeParam] at h
  obtain ⟨c, _, hc⟩ := List.mem_map.mp h
  by_cases hca : c.isAlphanum <;> simp [hca] at hc
  · exact absurd (hc ▸ hca) (by decide)

theorem append_colon_inj (x : List Char) :
    ∀ (y A B : List Char), ':' ∉ x → ':' ∉ y →
    x ++ ':' :: A = y ++ ':' :: B → x = y ∧ A = B := by
  induction x with
  | nil =>
    intro y A B _ hy h
    cases y with
    | nil => simpa using h
    | cons d y2 =>
      simp only [List.nil_append, List.cons_append, List.cons.injEq] at h
      exact absurd (h.1 ▸ List.mem_cons_self d y2) hy
  | cons c x2 ih =>
    intro y A B hx hy h
    cases y with
    | nil =>
      simp only [List.cons_append, List.nil_append, List.cons.injEq] at h
      exact absurd (h.1 ▸ List.mem_cons_self c x2) hx
    | cons d y2 =>
      simp only [List.cons_append, List.cons.injEq] at h
      obtain ⟨hcd, h2⟩ := h
      have hx2 : ':' ∉ x2 := fun m => hx (List.mem_cons_of_mem _ m)
      have hy2 : ':' ∉ y2 := fun m => hy (List.mem_cons_of_mem _ m)
      obtain ⟨he, hAB⟩ := ih y2 A B hx2 hy2 h2
      exact ⟨by simp [hcd, he], hAB⟩

theorem joinColon_cons_cons (a b : String) (l : List String) :
    joinColon (a :: b :: l) = a ++ ":" ++ joinColon (b :: l) := rfl

theorem string_data_inj {s t : String} (h : s.data = t.data) : s = t := by
  cases s; cases t; exact congrArg String.mk h

theorem joinColon_inj (xs : List String) :
    ∀ ys : List String, (∀ s ∈ xs, ':' ∉ s.data) → (∀ s ∈ ys, ':' ∉ s.data) →
    joinColon xs = joinColon ys →
    xs = ys ∨ (xs = [] ∧ ys = [""]) ∨ (xs = [""] ∧ ys = []) := by
  induction xs with
  | nil =>
    intro ys _ hys h
    match ys with
    | [] => exact Or.inl rfl
    | [y] =>
      right; left
      refine ⟨rfl, ?_⟩
      have : y = "" := (by simpa [joinColon] using h.symm)
      simp [this]
    | y :: y2 :: ys2 =>
      exfalso
      rw [joinColon_cons_cons] at h
      have hd := congrArg String.data h
      simp only [String.data_append, joinColon] at hd
      exact absurd hd (by simp [String.data])
  | cons x xs2 ih =>
    intro ys hxs hys h
    match ys with
    | [] =>
      match xs2 with
      | [] =>
        right; right
        refine ⟨?_, rfl⟩
        have : x = "" := by simpa [joinColon] using h
        simp [this]
      | x2 :: xs3 =>
        exfalso
        rw [joinColon_cons_cons] at h
        have hd := congrArg String.data h
        simp only [String.data_append, joinColon] at hd
        exact absurd hd (by simp [String.data])
    | y :: ys2 =>
      match xs2, ys2 with
      | [], [] =>
        left
        have : x = y := by simpa [joinColon] using h
        simp [this]
      | [], y2 :: ys3 =>
        exfalso
        rw [joinColon_cons_cons] at h
        have hd := congrArg String.data h
        simp only [joinColon, String.data_append] at hd
        have : ':' ∈ x.data := by
          rw [hd]; simp
        exact absurd this (hxs x (by simp))
      | x2 :: xs3, [] =>
        exfalso
        rw [joinColon_cons_cons] at h
        have hd := congrArg String.data h
        simp only [joinColon, String.data_append] at hd
        have : ':' ∈ y.data := by
          rw [← hd]; simp
        exact absurd this (hys y (by simp))
      | x2 :: xs3, y2 :: ys3 =>
        rw [joinColon_cons_cons, joinColon_cons_cons] at h
        have hd := congrArg String.data h
        simp only [String.data_append] at hd
        simp only [List.append_assoc, List.singleton_append] at hd
        obtain ⟨hxy, hjoin⟩ :=
          append_colon_inj x.data y.data (joinColon (x2 :: xs3)).data (joinColon (y2 :: ys3)).data
            (hxs x (by simp)) (hys y (by simp)) hd
        have hxy' : x = y := string_data_inj hxy
        have hrest := ih (y2 :: ys3)
          (fun s hs => hxs s (List.mem_cons_of_mem _ hs))
          (fun s hs => hys s (List.mem_cons_of_mem _ hs))
          (string_data_inj hjoin)
        rcases hrest with heq | ⟨hnil, _⟩ | ⟨_, hnil⟩
        · left; rw [hxy', heq]
        · exact absurd hnil (by simp)
        · exact absurd hnil (by simp)

theorem generateKey_eq_iff_joins_eq (pre : String) (ps qs : List String) :
    generateKey pre ps = generateKey pre qs ↔
    joinColon (ps.map sanitizeParam) = joinColon (qs.map sanitizeParam) := by
  constructor
  · intro h
    have hd := congrArg String.data h
    simp only [generateKey, String.data_append] at hd
    exact string_data_inj (List.append_cancel_left hd)
  · intro h
    simp [generateKey, h]

/-! ## Claim theorems: C7 and C9 -/

/-- C7 (amended): `generateKey` is a pure deterministic function, and two
calls with the same prefix produce the same key exactly when the
sanitized parameter lists coincide — or in the degenerate case where one
call has no parameters and the other a single parameter that sanitizes
to the empty string.  In particular parameters that differ only in
non-alphanumeric characters collide. -/
theorem C7_generateKey_deterministic_collisions :
    (∀ pre params, generateKey pre params = generateKey pre params) ∧
    (∀ pre ps qs, generateKey pre ps = generateKey pre qs ↔
      (ps.map sanitizeParam = qs.map sanitizeParam ∨
       (ps = [] ∧ qs.map sanitizeParam = [""]) ∨
       (ps.map sanitizeParam = [""] ∧ qs = []))) := by
  refine ⟨fun pre params => rfl, fun pre ps qs => ?_⟩
  rw [generateKey_eq_iff_joins_eq]
  constructor
  · intro h
    have hps : ∀ s ∈ ps.map sanitizeParam, ':' ∉ s.data := by
      intro s hs
      obtain ⟨p, _, hp⟩ := List.mem_map.mp hs
      exact hp ▸ sanitizeParam_colonFree p
    have hqs : ∀ s ∈ qs.map sanitizeParam, ':' ∉ s.data := by
      intro s hs
      obtain ⟨p, _, hp⟩ := List.mem_map.mp hs
      exact hp ▸ sanitizeParam_colonFree p
    rcases joinColon_inj (ps.map sanitizeParam) (qs.map sanitizeParam) hps hqs h with
      heq | ⟨hn, he⟩ | ⟨he, hn⟩
    · exact Or.inl heq
    · exact Or.inr (Or.inl ⟨List.map_eq_nil_iff.mp hn, he⟩)
    · exact Or.inr (Or.inr ⟨he, List.map_eq_nil_iff.mp hn⟩)
  · rintro (heq | ⟨hn, he⟩ | ⟨he, hn⟩)
    · rw [heq]
    · rw [hn, he]; rfl
    · rw [he, hn]; rfl

/-- C7 witness: a concrete collision obtained from the amended theorem —
the parameter lists differ but sanitize identically, so the keys agree. -/
theorem C7_generateKey_witness :
    generateKey "k" ["a", "b-c"] = generateKey "k" ["a", "b_c"] ∧
    (["a", "b-c"] : List String) ≠ ["a", "b_c"] :=
  ⟨(C7_generateKey_deterministic_collisions.2 "k" ["a", "b-c"] ["a", "b_c"]).mpr
      (Or.inl (by decide)),
    by decide⟩

/-- C7 counterexample: the original claim says any two calls whose
parameter lists differ in at least one parameter yield different keys;
the parameter lists below differ yet produce the same key, because the
non-alphanumeric hyphen is sanitized to an underscore. -/
theorem C7_generateKey_injectivity_counterexample :
    generateKey "p" ["a-b"] = generateKey "p" ["a_b"] ∧
    (["a-b"] : List String) ≠ ["a_b"] := by
  constructor
  · decide
  · decide

/-- C9 (confirmed): for every day number the week window starts on the
Monday of that day's ISO week (the start is a Monday, is not after the
day, and is less than seven days before it — the Sunday 2024-03-17 edge
case included); for today = 2024-03-15 (a Friday) the week start is
2024-03-11, the month start 2024-03-01, and the year start 2024-01-01. -/
theorem C9_period_boundaries :
    (∀ dn : Int, dayOfWeekDn (startOfWeekDn dn) = 1 ∧
      startOfWeekDn dn ≤ dn ∧ dn - startOfWeekDn dn < 7) ∧
    dayOfWeekDn (daysFromCivil 2024 3 15) = 5 ∧
    getStartOfWeek 2024 3 15 = (2024, 3, 11) ∧
    formatDate (getStartOfWeek 2024 3 15) = "2024-03-11" ∧
    dayOfWeekDn (daysFromCivil 2024 3 17) = 0 ∧
    getStartOfWeek 2024 3 17 = (2024, 3, 11) ∧
    getStartOfMonth 2024 3 15 = (2024, 3, 1) ∧
    formatDate (getStartOfMonth 2024 3 15) = "2024-03-01" ∧
    getStartOfYear 2024 3 15 = (2024, 1, 1) ∧
    formatDate (getStartOfYear 2024 3 15) = "2024-01-01" := by
  refine ⟨fun dn => ?_, by decide, by decide, by decide, by decide, by decide,
    by decide, by decide, by decide, by decide⟩
  simp only [dayOfWeekDn, startOfWeekDn]
  by_cases h : (dn + 4) % 7 = 0 <;> simp only [h, reduceIte, if_true, if_false] <;> omega

/-! ## JavaScript string and number primitives

String operations are carried out on the character list so that every
definition evaluates by kernel reduction.  `Number(s)` is modelled for
decimal literals (optional sign, digits, optional fractional part),
which covers every string the service feeds it; `none` stands for NaN. -/

/-- `s.split(sep)` for a one-character separator. -/
def splitChar (sep : Char) (s : String) : List String :=
  (s.data.splitOn sep).map String.mk

/-- `s.startsWith(pat)`. -/
def jsStartsWith (s pat : String) : Bool := pat.data.isPrefixOf s.data

/-- Infix search on character lists (for `String.prototype.includes`
and substring matching of error patterns). -/
def containsSub (s pat : List Char) : Bool :=
  match s with
  | [] => pat.isEmpty
  | _ :: t => pat.isPrefixOf s || containsSub t pat

/-- `s.includes(pat)`. -/
def jsIncludes (s pat : String) : Bool := containsSub s.data pat.data

/-- `s.toLowerCase()`. -/
def jsToLower (s : String) : String := ⟨s.data.map Char.toLower⟩

/-- `s.trim()`. -/
def jsTrim (s : String) : String :=
  ⟨((s.data.dropWhile Char.isWhitespace).reverse.dropWhile Char.isWhitespace).reverse⟩

/-- Value of a nonempty all-digit character list, else `none`. -/
def decDigitsVal (cs : List Char) : Option Nat :=
  if !cs.isEmpty && cs.all Char.isDigit then
    some (cs.foldl (fun a c => a * 10 + (c.toNat - 48)) 0)
  else none

/-- JavaScript `Number(s)` on decimal literals: trimmed empty string is
0, optional sign, then digits with an optional fractional part; anything
else is NaN (`none`). -/
def jsStringToNumber (s : String) : Option Rat :=
  let t := jsTrim s
  if t.data.isEmpty then some 0 else
  let neg := jsStartsWith t "-"
  let body : String := if neg || jsStartsWith t "+" then ⟨t.data.drop 1⟩ else t
  let signed : Rat → Rat := fun v => if neg then -v else v
  match (body.data.splitOn '.').map String.mk with
  | [ip] => (decDigitsVal ip.data).map (fun n => signed n)
  | [ip, fp] =>
    if ip.data.isEmpty && fp.data.isEmpty then none
    else if ip.data.isEmpty then
      (decDigitsVal fp.data).map (fun f => signed ((f : Rat) / (10 : Rat) ^ fp.length))
    else if fp.data.isEmpty then
      (decDigitsVal ip.data).map (fun n => signed n)
    else
      match decDigitsVal ip.data, decDigitsVal fp.data with
      | some n, some f => some (signed ((n : Rat) + (f : Rat) / (10 : Rat) ^ fp.length))
      | _, _ => none
  | _ => none

/-- ECMAScript ToInteger: truncate toward zero. -/
def ratTrunc (q : Rat) : Int := Int.tdiv q.num q.den

/-- `Number(s)` followed by ToInteger, as the `Date` constructor applies
to each component. -/
def jsNumInt (s : String) : Option Int := (jsStringToNumber s).map ratTrunc

/-- `new Date(y, m, d, hh, mi).getTime()` scaled to minutes: the month
index is normalized with floor division (JavaScript rolls overflowing
fields over), two-digit years map to 1900+y, and overflowing day, hour
and minute fields are plain offsets. -/
def jsDateMinutes (y m d hh mi : Int) : Int :=
  let yFull := if 0 ≤ y ∧ y ≤ 99 then y + 1900 else y
  let yAdj := yFull + Int.fdiv m 12
  let mAdj := Int.emod m 12
  daysFromCivil yAdj (mAdj + 1) 1 * 1440 + (d - 1) * 1440 + hh * 60 + mi

/-! ## parseDate and getAverageTradeLength (service lines 609-776) -/

/-- `parseDate`: split on the blank into date and time parts (missing or
empty parts give `null`), split those on `/` and `:`, coerce the five
components with `Number`, and build the `Date`; the result is minutes
since the epoch. -/
def parseDate (dateString : String) : Option Int :=
  let parts := splitChar ' ' dateString
  match parts.get? 0, parts.get? 1 with
  | some datePart, some timePart =>
    if datePart.data.isEmpty || timePart.data.isEmpty then none
    else
      let dparts := splitChar '/' datePart
      let tparts := splitChar ':' timePart
      match (dparts.get? 0).bind jsNumInt, (dparts.get? 1).bind jsNumInt,
            (dparts.get? 2).bind jsNumInt, (tparts.get? 0).bind jsNumInt,
            (tparts.get? 1).bind jsNumInt with
      | some mo, some da, some yr, some hh, some mi =>
        some (jsDateMinutes yr (mo - 1) da hh mi)
      | _, _, _, _, _ => none
  | _, _ => none

/-- One trade history record; the service touches only the two time
fields.  `none` models an absent field. -/
structure TradeRec where
  openTime : Option String := none
  closeTime : Option String := none
deriving DecidableEq, Repr

/-- A history array item: upstream sometimes wraps the record in a
singleton array, which the service unwraps with `record[0]`. -/
inductive HistItem where
  | one (t : TradeRec)
  | many (l : List TradeRec)
deriving DecidableEq, Repr

/-- `Array.isArray(record) ? record[0] : record` (an empty wrapper
yields `undefined`). -/
def unwrapHistItem : HistItem → Option TradeRec
  | .many l => l.head?
  | .one t => some t

/-- Body of the `records.forEach` accumulation in
`getAverageTradeLength`: total valid duration in milliseconds paired
with the count of valid trades.  A record is skipped when the unwrap
fails, a time field is missing or empty (falsy), a time fails to parse,
or the duration is negative. -/
def tradeStep (acc : Int × Nat) (it : HistItem) : Int × Nat :=
  match unwrapHistItem it with
  | none => acc
  | some t =>
    match t.openTime, t.closeTime with
    | some o, some c =>
      if o.data.isEmpty || c.data.isEmpty then acc
      else
        match parseDate o, parseDate c with
        | some om, some cm =>
          let len := (cm - om) * 60000
          if 0 ≤ len then (acc.1 + len, acc.2 + 1) else acc
        | _, _ => acc
    | _, _ => acc

/-- The accumulation over all records. -/
def tradeStats (records : List HistItem) : Int × Nat :=
  records.foldl tradeStep (0, 0)

/-- Result shape of `getAverageTradeLength` (the human-readable
formatted string is display only and not modelled). -/
structure TradeLengthResult where
  averageTradeLengthMs : Int
  totalTrades : Nat
deriving DecidableEq, Repr

/-- `getAverageTradeLength` on the extracted records: empty input short
circuits to zeros, otherwise the average is `Math.round` of total valid
duration over the valid count (0 when no trade is valid) while
`totalTrades` is the length of the whole record list. -/
def getAverageTradeLength (records : List HistItem) : TradeLengthResult :=
  if records.isEmpty then ⟨0, 0⟩
  else
    let s := tradeStats records
    let avg : Rat := if 0 < s.2 then (s.1 : Rat) / (s.2 : Rat) else 0
    ⟨round avg, records.length⟩

/-- Specification view of one record: `some` of the duration in
milliseconds exactly when the record is valid (both times present,
nonempty, parseable, and close is not before open). -/
def validTradeDuration (it : HistItem) : Option Int :=
  match unwrapHistItem it with
  | none => none
  | some t =>
    match t.openTime, t.closeTime with
    | some o, some c =>
      if o.data.isEmpty || c.data.isEmpty then none
      else
        match parseDate o, parseDate c with
        | some om, some cm => if om ≤ cm then some ((cm - om) * 60000) else none
        | _, _ => none
    | _, _ => none

theorem tradeStep_eq (acc : Int × Nat) (it : HistItem) :
    tradeStep acc it = (match validTradeDuration it with
      | some v => (acc.1 + v, acc.2 + 1)
      | none => acc) := by
  rcases acc with ⟨a, n⟩
  unfold tradeStep validTradeDuration
  cases unwrapHistItem it with
  | none => rfl
  | some t =>
    obtain ⟨ot, ct⟩ := t
    cases ot with
    | none => rfl
    | some o =>
      cases ct with
      | none => rfl
      | some c =>
        simp only
        by_cases hoc : (o.data.isEmpty || c.data.isEmpty) = true
        · simp [hoc]
        · simp only [hoc, Bool.false_eq_true, if_false]
          cases parseDate o with
          | none => rfl
          | some om =>
            cases parseDate c with
            | none => rfl
            | some cm =>
              have hiff : (0 ≤ (cm - om) * 60000) ↔ om ≤ cm := by
                rw [mul_nonneg_iff_of_pos_right (by norm_num : (0:Int) < 60000)]
                omega
              by_cases hle : om ≤ cm
              · simp [hle, hiff.mpr hle]
              · simp [hle, fun h => hle (hiff.mp h)]

theorem tradeStats_foldl (l : List HistItem) : ∀ a : Int, ∀ n : Nat,
    l.foldl tradeStep (a, n) =
      (a + (l.filterMap validTradeDuration).sum,
       n + (l.filterMap validTradeDuration).length) := by
  induction l with
  | nil => intro a n; simp
  | cons it l ih =>
    intro a n
    rw [List.foldl_cons, tradeStep_eq]
    cases hv : validTradeDuration it with
    | none => simp only [List.filterMap_cons, hv]; exact ih a n
    | some v =>
      simp only [List.filterMap_cons, hv, List.sum_cons, List.length_cons]
      rw [ih]
      refine congrArg₂ Prod.mk (by ring) (by omega)

theorem tradeStats_eq (records : List HistItem) :
    tradeStats records =
      ((records.filterMap validTradeDuration).sum,
       (records.filterMap validTradeDuration).length) := by
  have h := tradeStats_foldl records 0 0
  simpa [tradeStats] using h

/-- The spec's example trade: open 01/01/2024 10:00, close 01/01/2024
12:00 — valid, two hours long. -/
def exTradeValid : HistItem :=
  HistItem.one ⟨some "01/01/2024 10:00", some "01/01/2024 12:00"⟩

/-- The spec's invalid example trade: close before open. -/
def exTradeInvalid : HistItem :=
  HistItem.one ⟨some "01/01/2024 09:00", some "01/01/2024 08:00"⟩

/-- C8 (confirmed): in `getAverageTradeLength` a record is valid exactly
when both timestamps parse in the MM/DD/YYYY HH:mm shape and close is
not before open; the reported average is the rounded mean of the valid
durations (0 when none is valid) while `totalTrades` counts every
record; on the spec's two example trades the valid count is 1, the
average is two hours (7200000 ms), and `totalTrades` is 2. -/
theorem C8_average_trade_length :
    (∀ records : List HistItem,
      (getAverageTradeLength records).totalTrades = records.length ∧
      (getAverageTradeLength records).averageTradeLengthMs =
        (if 0 < (records.filterMap validTradeDuration).length then
          round (((records.filterMap validTradeDuration).sum : Rat) /
            ((records.filterMap validTradeDuration).length : Rat))
         else 0)) ∧
    validTradeDuration exTradeValid = some 7200000 ∧
    validTradeDuration exTradeInvalid = none ∧
    (tradeStats [exTradeValid, exTradeInvalid]).2 = 1 ∧
    getAverageTradeLength [exTradeValid, exTradeInvalid] = ⟨7200000, 2⟩ := by
  refine ⟨fun records => ?_, by decide, by decide, by decide, ?_⟩
  · by_cases hne : records.isEmpty
    · rw [List.isEmpty_iff] at hne
      subst hne
      simp [getAverageTradeLength]
    · constructor
      · simp [getAverageTradeLength, hne]
      · simp only [getAverageTradeLength, hne, Bool.false_eq_true, if_false, tradeStats_eq]
        by_cases hv : 0 < (records.filterMap validTradeDuration).length
        · simp [hv]
        · simp [hv]
  · have h : tradeStats [exTradeValid, exTradeInvalid] = (7200000, 1) := by decide
    simp only [getAverageTradeLength, h, List.isEmpty_cons, List.length_cons,
      List.length_nil]
    norm_num [round_eq]

/-! ## getBalanceProfitability (service lines 778-991)

The daily records extracted from the `getDataDaily` response.  Only the
fields the service touches are modelled; `none` is an absent field. -/

/-- One upstream daily record. -/
structure DailyRec where
  date : Option String := none
  time : Option String := none
  timestamp : Option String := none
  day : Option String := none
  balance : Option Rat := none
  profit : Option Rat := none
  profite : Option Rat := none
deriving DecidableEq, Repr

/-- A daily-data array item, possibly wrapped in a singleton array. -/
inductive DailyItem where
  | one (r : DailyRec)
  | many (l : List DailyRec)
deriving DecidableEq, Repr

/-- `Array.isArray(item) ? item[0] : item`. -/
def unwrapDailyItem : DailyItem → Option DailyRec
  | .many l => l.head?
  | .one r => some r

/-- `recordArr[0]` without an array check, as the non-default branch of
`getDataDaily` does: indexing a plain object with 0 gives `undefined`. -/
def unwrapIndexZero : DailyItem → Option DailyRec
  | .many l => l.head?
  | .one _ => none

/-- `records.map(item => Array.isArray(item) ? item[0] : item)
.filter(item => !!item)`. -/
def normalizeDaily (items : List DailyItem) : List DailyRec :=
  items.filterMap unwrapDailyItem

/-- `Number(record.balance) || 0` when the field is present, else the
0 default used by the balance scans. -/
def recBalance (r : DailyRec) : Rat := r.balance.getD 0

/-- JavaScript `a || b` over the candidate date fields
(`entry.date || entry.time || entry.timestamp || entry.day`); the empty
string is falsy. -/
def jsOrString (a b : Option String) : Option String :=
  match a with
  | some s => if s.data.isEmpty then b else some s
  | none => b

/-- The date value probed from a record. -/
def dateValueOf (r : DailyRec) : Option String :=
  jsOrString r.date (jsOrString r.time (jsOrString r.timestamp r.day))

/-- The match predicate of `getBalanceForDate`: exact equality, prefix,
or substring containment of the target date. -/
def dateMatches (target : String) (r : DailyRec) : Bool :=
  match dateValueOf r with
  | none => false
  | some ds => ds == target || jsStartsWith ds target || jsIncludes ds target

/-- `getBalanceForDate`: first matching record, then its balance if
present (otherwise `null`, triggering the fallback). -/
def getBalanceForDate (normalized : List DailyRec) (target : String) : Option Rat :=
  (normalized.find? (dateMatches target)).bind (fun m => m.balance)

/-- The resolved start balance: date match or else the first record's
balance (0 when that record has no balance). -/
def resolvedStartBalance (normalized : List DailyRec) (startDate : String) : Rat :=
  match getBalanceForDate normalized startDate with
  | some v => v
  | none => (normalized.head?.bind (fun r => r.balance)).getD 0

/-- The resolved end balance: date match or else the last record's
balance (0 when that record has no balance). -/
def resolvedEndBalance (normalized : List DailyRec) (endDate : String) : Rat :=
  match getBalanceForDate normalized endDate with
  | some v => v
  | none => (normalized.getLast?.bind (fun r => r.balance)).getD 0

/-- The peak scan (`normalized.forEach` with `balance > peakBalance`):
running peak starting at 0 and its index starting at -1. -/
def peakScanGo : List Rat → Nat → Rat → Int → Rat × Int
  | [], _, peak, peakIdx => (peak, peakIdx)
  | b :: rest, idx, peak, peakIdx =>
    if peak < b then peakScanGo rest (idx + 1) b idx
    else peakScanGo rest (idx + 1) peak peakIdx

/-- The peak balance and its index. -/
def peakScan (l : List Rat) : Rat × Int := peakScanGo l 0 0 (-1)

/-- The trough loop over the records after the peak: tracks the running
minimum `minB` and the `foundDrop` flag, and exits early at the first
recovery (a balance strictly above the tracked minimum after a drop
below the peak). -/
def troughLoop (peak : Rat) : List Rat → Rat → Bool → Rat × Bool
  | [], minB, foundDrop => (minB, foundDrop)
  | b :: rest, minB, foundDrop =>
    let fd := foundDrop || decide (b < peak)
    let m := if fd && decide (b < minB) then b else minB
    if fd && decide (m < peak) && decide (m < b) then (m, fd)
    else troughLoop peak rest m fd

/-- The trough: run the loop after the peak when the peak exists and is
not the last record, and keep the minimum only when a drop occurred. -/
def computeTrough (l : List Rat) : Rat :=
  let p := peakScan l
  if 0 ≤ p.2 ∧ p.2 < (l.length : Int) - 1 then
    let t := troughLoop p.1 (l.drop (p.2.toNat + 1)) p.1 false
    if t.2 && decide (t.1 < p.1) then t.1 else p.1
  else p.1

/-- `(peakBalance - troughBalance) / peakBalance`, guarded on a zero
peak. -/
def computeDrawdown (l : List Rat) : Rat :=
  let peak := (peakScan l).1
  let trough := computeTrough l
  if peak ≠ 0 then (peak - trough) / peak else 0

/-- `getBalanceProfitability` after the daily records have been
extracted: returns (profitabilityPercent, drawdownPercent).  Note the
profitability divides by the end balance while the zero guard tests the
start balance, exactly as the source does. -/
def getBalanceProfitability (items : List DailyItem) (startDate endDate : String) :
    Rat × Rat :=
  let normalized := normalizeDaily items
  if normalized.isEmpty then (0, 0)
  else
    let startBalance := resolvedStartBalance normalized startDate
    let endBalance := resolvedEndBalance normalized endDate
    let profitability :=
      if startBalance ≠ 0 then (endBalance - startBalance) / endBalance else 0
    let drawdown := computeDrawdown (normalized.map recBalance)
    (round2 (profitability * 100), round2 (drawdown * 100))

/-! ## Lemmas about the peak/trough scan -/

theorem peakScanGo_fst (l : List Rat) : ∀ (i : Nat) (p : Rat) (pidx : Int),
    (peakScanGo l i p pidx).1 = l.foldl max p := by
  induction l with
  | nil => intro i p pidx; rfl
  | cons b rest ih =>
    intro i p pidx
    by_cases hb : p < b
    · simp only [peakScanGo, hb, if_pos, List.foldl_cons]
      rw [ih, max_eq_right hb.le]
    · simp only [peakScanGo, hb, if_false, List.foldl_cons]
      rw [ih, max_eq_left (not_lt.mp hb)]

theorem foldl_max_le (l : List Rat) : ∀ p : Rat,
    p ≤ l.foldl max p ∧ ∀ x ∈ l, x ≤ l.foldl max p := by
  induction l with
  | nil => intro p; simp
  | cons b rest ih =>
    intro p
    refine ⟨le_trans (le_max_left p b) (ih (max p b)).1, ?_⟩
    intro x hx
    rcases List.mem_cons.mp hx with rfl | hx
    · exact le_trans (le_max_right p x) (ih (max p x)).1
    · exact (ih (max p b)).2 x hx

theorem peakScanGo_cases (l : List Rat) : ∀ (i : Nat) (p : Rat) (pidx : Int),
    ((peakScanGo l i p pidx).2 = pidx ∧ (peakScanGo l i p pidx).1 = p) ∨
    ∃ k : Nat, ∃ hk : k < l.length,
      (peakScanGo l i p pidx).2 = ((i + k : Nat) : Int) ∧
      l.get ⟨k, hk⟩ = (peakScanGo l i p pidx).1 := by
  induction l with
  | nil => intro i p pidx; exact Or.inl ⟨rfl, rfl⟩
  | cons b rest ih =>
    intro i p pidx
    by_cases hb : p < b
    · simp only [peakScanGo, hb, if_pos]
      rcases ih (i + 1) b i with ⟨h2, h1⟩ | ⟨k, hk, h2, h3⟩
      · right
        exact ⟨0, by simp, by simpa using h2, by simpa using h1.symm⟩
      · right
        refine ⟨k + 1, by simpa using hk, ?_, by simpa using h3⟩
        rw [h2]
        push_cast
        ring
    · simp only [peakScanGo, hb, if_false]
      rcases ih (i + 1) p pidx with hL | ⟨k, hk, h2, h3⟩
      · exact Or.inl hL
      · right
        refine ⟨k + 1, by simpa using hk, ?_, by simpa using h3⟩
        rw [h2]
        push_cast
        ring

theorem troughLoop_no_drop (peak : Rat) (s : List Rat) :
    (∀ b ∈ s, ¬ b < peak) → ∀ m : Rat, troughLoop peak s m false = (m, false) := by
  induction s with
  | nil => intro _ m; rfl
  | cons b r ih =>
    intro hs m
    have hb : decide (b < peak) = false := decide_eq_false (hs b (by simp))
    simp only [troughLoop, hb, Bool.or_false, Bool.false_and, Bool.and_false,
      Bool.false_or, if_false, Bool.false_eq_true]
    exact ih (fun x hx => hs x (List.mem_cons_of_mem _ hx)) m

theorem computeDrawdown_sorted (l : List Rat) (h : l.Pairwise (· ≤ ·)) :
    computeDrawdown l = 0 := by
  by_cases hp : (peakScan l).1 = 0
  · simp [computeDrawdown, hp]
  · have htrough : computeTrough l = (peakScan l).1 := by
      by_cases hcond : 0 ≤ (peakScan l).2 ∧ (peakScan l).2 < (l.length : Int) - 1
      · rcases peakScanGo_cases l 0 0 (-1) with ⟨h2, _⟩ | ⟨k, hk, h2, h3⟩
        · exfalso
          have : (peakScan l).2 = -1 := h2
          omega
        · have hidx : (peakScan l).2 = (k : Int) := by simpa using h2
          have hsuffix : ∀ b ∈ l.drop ((peakScan l).2.toNat + 1), ¬ b < (peakScan l).1 := by
            intro b hb
            obtain ⟨j, hj⟩ := List.mem_iff_get.mp hb
            have hlen : (peakScan l).2.toNat + 1 + (j : Nat) < l.length := by
              have := j.isLt
              simp only [List.length_drop] at this
              omega
            have hget : b = l.get ⟨(peakScan l).2.toNat + 1 + (j : Nat), hlen⟩ := by
              rw [← hj]
              simp [List.get_eq_getElem, List.getElem_drop]
            have hkn : (peakScan l).2.toNat = k := by
              rw [hidx]
              exact Int.toNat_natCast k
            have hle : l.get ⟨k, hk⟩ ≤ l.get ⟨(peakScan l).2.toNat + 1 + (j : Nat), hlen⟩ := by
              refine List.pairwise_iff_get.mp h _ _ ?_
              simp only [Fin.mk_lt_mk]
              omega
            rw [hget]
            exact not_lt.mpr (h3 ▸ hle)
          simp only [computeTrough]
          rw [if_pos hcond, troughLoop_no_drop _ _ hsuffix]
          simp
      · simp only [computeTrough]
        rw [if_neg hcond]
    simp only [computeDrawdown, htrough]
    rw [if_pos hp]
    simp

/-- A daily record holding just a date and a balance, as in the spec's
examples. -/
def mkDaily (d : String) (b : Rat) : DailyItem :=
  DailyItem.one { date := some d, balance := some b }

/-- The spec's drawdown example sequence with balances
100, 150, 90, 120. -/
def exDrawdown : List DailyItem :=
  [mkDaily "2024-01-01" 100, mkDaily "2024-01-02" 150,
   mkDaily "2024-01-03" 90, mkDaily "2024-01-04" 120]

/-- A monotonically non-decreasing example sequence. -/
def exSortedDaily : List DailyItem :=
  [mkDaily "2024-01-01" 100, mkDaily "2024-01-02" 100, mkDaily "2024-01-03" 200]

/-- C4 (confirmed): the peak used by `getBalanceProfitability` is the
global maximum of the balances (floored at 0), every monotonically
non-decreasing balance sequence has drawdown 0, and the spec's example
sequence 100, 150, 90, 120 yields a drawdown of 40 percent. -/
theorem C4_drawdown :
    (∀ l : List Rat, (peakScan l).1 = l.foldl max 0) ∧
    (∀ items : List DailyItem, ∀ s e : String,
      ((normalizeDaily items).map recBalance).Pairwise (· ≤ ·) →
      (getBalanceProfitability items s e).2 = 0) ∧
    (getBalanceProfitability exDrawdown "2024-01-01" "2024-01-04").2 = 40 := by
  refine ⟨fun l => peakScanGo_fst l 0 0 (-1), ?_, ?_⟩
  · intro items s e hsorted
    by_cases hne : (normalizeDaily items).isEmpty
    · simp [getBalanceProfitability, hne]
    · have hdd := computeDrawdown_sorted _ hsorted
      simp only [getBalanceProfitability, hne, Bool.false_eq_true, if_false, hdd]
      norm_num [round2, round_eq]
  · have h1 : peakScan ((normalizeDaily exDrawdown).map recBalance) = (150, 1) := by decide
    have h2 : computeTrough ((normalizeDaily exDrawdown).map recBalance) = 90 := by decide
    have h3 : (normalizeDaily exDrawdown).isEmpty = false := by decide
    simp only [getBalanceProfitability, h3, Bool.false_eq_true, if_false,
      computeDrawdown, h1, h2]
    norm_num [round2, round_eq]

/-- C4 witness: the monotone clause of `C4_drawdown` applied to a
concrete non-decreasing sequence. -/
theorem C4_drawdown_witness :
    ((normalizeDaily exSortedDaily).map recBalance).Pairwise (· ≤ ·) ∧
    (getBalanceProfitability exSortedDaily "2024-01-01" "2024-01-03").2 = 0 :=
  ⟨by decide,
    C4_drawdown.2.1 exSortedDaily "2024-01-01" "2024-01-03" (by decide)⟩

/-- The C10 example: balances 100 then 200; the reported profitability
is 50 percent because the divisor is the end balance. -/
def exProfit : List DailyItem :=
  [mkDaily "2024-01-01" 100, mkDaily "2024-01-02" 200]

/-- The C10 zero-start example: start balance 0 short-circuits to 0. -/
def exProfitZero : List DailyItem :=
  [mkDaily "2024-01-01" 0, mkDaily "2024-01-02" 200]

/-- C10 (confirmed): on every nonempty extracted daily sequence the
profitability is 0 when the resolved start balance is 0 and otherwise
equals (end - start) / end — the guard tests the start balance while the
divisor is the end balance; with balances 100 then 200 the result is 50
percent (not 100), and with a zero start balance it is 0. -/
theorem C10_profitability_divisor :
    (∀ items : List DailyItem, ∀ s e : String, normalizeDaily items ≠ [] →
      (getBalanceProfitability items s e).1 =
        (if resolvedStartBalance (normalizeDaily items) s = 0 then 0
         else round2 ((resolvedEndBalance (normalizeDaily items) e -
            resolvedStartBalance (normalizeDaily items) s) /
            resolvedEndBalance (normalizeDaily items) e * 100))) ∧
    (getBalanceProfitability exProfit "2024-01-01" "2024-01-02").1 = 50 ∧
    (getBalanceProfitability exProfitZero "2024-01-01" "2024-01-02").1 = 0 := by
  refine ⟨?_, ?_, ?_⟩
  · intro items s e hne
    have hempty : (normalizeDaily items).isEmpty = false := by
      simpa [List.isEmpty_iff] using hne
    simp only [getBalanceProfitability, hempty, Bool.false_eq_true, if_false]
    by_cases hs : resolvedStartBalance (normalizeDaily items) s = 0
    · simp only [hs, ne_eq, not_true_eq_false, if_false]
      norm_num [round2, round_eq]
    · simp [hs]
  · have hs : resolvedStartBalance (normalizeDaily exProfit) "2024-01-01" = 100 := by decide
    have he : resolvedEndBalance (normalizeDaily exProfit) "2024-01-02" = 200 := by decide
    have h3 : (normalizeDaily exProfit).isEmpty = false := by decide
    simp only [getBalanceProfitability, h3, Bool.false_eq_true, if_false, hs, he]
    norm_num [round2, round_eq]
  · have hs : resolvedStartBalance (normalizeDaily exProfitZero) "2024-01-01" = 0 := by decide
    have h3 : (normalizeDaily exProfitZero).isEmpty = false := by decide
    simp only [getBalanceProfitability, h3, Bool.false_eq_true, if_false, hs]
    norm_num [round2, round_eq]

/-- C10 witness: the general clause of `C10_profitability_divisor`
applied to the concrete two-record example. -/
theorem C10_profitability_witness :
    normalizeDaily exProfit ≠ [] ∧
    (getBalanceProfitability exProfit "2024-01-01" "2024-01-02").1 =
      (if resolvedStartBalance (normalizeDaily exProfit) "2024-01-01" = 0 then 0
       else round2 ((resolvedEndBalance (normalizeDaily exProfit) "2024-01-02" -
          resolvedStartBalance (normalizeDaily exProfit) "2024-01-01") /
          resolvedEndBalance (normalizeDaily exProfit) "2024-01-02" * 100)) :=
  ⟨by decide,
    C10_profitability_divisor.1 exProfit "2024-01-01" "2024-01-02" (by decide)⟩

/-! ## getDataDaily default-account merge (service lines 1020-1081) -/

/-- The shape of one `get-data-daily` response as the merge probes it. -/
structure DailyResponse where
  error : Bool := false
  message : Option String := none
  dataDaily : Option (List DailyItem) := none
  data : Option (List DailyItem) := none
  records : Option (List DailyItem) := none
  totalProfit : Option Rat := none
deriving DecidableEq, Repr

/-- The `.catch` substitution of a failed per-account call:
`{ dataDaily: [], data: [], records: [], error: false }`. -/
def dailyCatchSub : DailyResponse :=
  { error := false, dataDaily := some [], data := some [], records := some [] }

/-- The per-response record probing of the merge loop: `dataDaily`,
else `data`, else `records`, else nothing. -/
def pickDailyRecords (r : DailyResponse) : List DailyItem :=
  match r.dataDaily with
  | some l => l
  | none =>
    match r.data with
    | some l => l
    | none =>
      match r.records with
      | some l => l
      | none => []

/-- `Number(record.profit ?? record.profite ?? 0) || 0` for one merged
item (skipped records and records with neither field contribute 0). -/
def profitContribution (it : DailyItem) : Rat :=
  match unwrapDailyItem it with
  | none => 0
  | some r =>
    match r.profit with
    | some v => v
    | none => r.profite.getD 0

/-- A per-account outcome after the `.catch` handler. -/
def substDaily (o : Except HttpError DailyResponse) : DailyResponse :=
  match o with
  | .ok r => r
  | .error _ => dailyCatchSub

/-- The `"default"` merge of `getDataDaily`: concatenate the probed
record arrays of all per-account responses, sum every response-level
`totalProfit` and every per-record profit delta into a scalar
`totalProfit`, and return the first response with the combined fields
substituted in. -/
def getDataDailyDefaultMerge (outcomes : List (Except HttpError DailyResponse)) :
    DailyResponse :=
  let allResponses := outcomes.map substDaily
  let combinedDataDaily :=
    allResponses.foldl (fun acc r => acc ++ pickDailyRecords r) []
  let tp0 := allResponses.foldl (fun acc r => acc + r.totalProfit.getD 0) 0
  let totalProfit :=
    combinedDataDaily.foldl (fun acc it => acc + profitContribution it) tp0
  { allResponses.head?.getD {} with
      dataDaily := some combinedDataDaily,
      totalProfit := some (round2 totalProfit),
      error := false }

theorem foldl_append_pick (rs : List DailyResponse) : ∀ acc : List DailyItem,
    rs.foldl (fun a r => a ++ pickDailyRecords r) acc =
      acc ++ (rs.map pickDailyRecords).flatten := by
  induction rs with
  | nil => intro acc; simp
  | cons r rest ih =>
    intro acc
    simp only [List.foldl_cons, List.map_cons, List.flatten_cons, ih, List.append_assoc]

theorem foldl_add_rat {α : Type} (f : α → Rat) (l : List α) : ∀ a : Rat,
    l.foldl (fun acc x => acc + f x) a = a + (l.map f).sum := by
  induction l with
  | nil => intro a; simp
  | cons x rest ih =>
    intro a
    simp only [List.foldl_cons, List.map_cons, List.sum_cons, ih]
    ring

/-- The spec's cumulative example, split over two accounts: per-day
profit deltas 10, 5 for the first and -3, 8 for the second. -/
def exMergeOutcomes : List (Except HttpError DailyResponse) :=
  [Except.ok { dataDaily := some [DailyItem.one { profit := some 10 },
                                  DailyItem.one { profit := some 5 }] },
   Except.ok { dataDaily := some [DailyItem.one { profit := some (-3) },
                                  DailyItem.one { profit := some 8 }] }]

/-- C3 counterexample: for the concatenated per-day deltas
10, 5, -3, 8 the merged records' profit fields are unchanged —
10, 5, -3, 8 — and not the cumulative series 10, 15, 12, 20 the claim
requires, so no cumulative-profit transform is applied by the merge. -/
theorem C3_cumulative_counterexample :
    ((getDataDailyDefaultMerge exMergeOutcomes).dataDaily.getD []).map profitContribution =
      [10, 5, -3, 8] ∧
    ([10, 5, -3, 8] : List Rat) ≠ [10, 15, 12, 20] := by
  constructor
  · decide
  · decide

/-- C3 (amended): the repository contains no cumulative-profit-series
transform; the `"default"` daily-data merge concatenates the per-account
records unchanged (per-record profits are exactly the probed inputs) and
computes only a scalar `totalProfit` equal to the rounded sum of the
response-level totals and all per-record profit deltas; on the deltas
10, 5, -3, 8 the merged profits stay 10, 5, -3, 8 and `totalProfit`
is 20. -/
theorem C3_merge_concatenates :
    (∀ outcomes : List (Except HttpError DailyResponse),
      (getDataDailyDefaultMerge outcomes).dataDaily =
        some ((outcomes.map (fun o => pickDailyRecords (substDaily o))).flatten) ∧
      (getDataDailyDefaultMerge outcomes).totalProfit =
        some (round2
          ((outcomes.map (fun o => (substDaily o).totalProfit.getD 0)).sum +
           (((outcomes.map (fun o => pickDailyRecords (substDaily o))).flatten.map
              profitContribution)).sum))) ∧
    ((getDataDailyDefaultMerge exMergeOutcomes).dataDaily.getD []).map profitContribution =
      [10, 5, -3, 8] ∧
    (getDataDailyDefaultMerge exMergeOutcomes).totalProfit = some 20 := by
  have hgen : ∀ outcomes : List (Except HttpError DailyResponse),
      (getDataDailyDefaultMerge outcomes).dataDaily =
        some ((outcomes.map (fun o => pickDailyRecords (substDaily o))).flatten) ∧
      (getDataDailyDefaultMerge outcomes).totalProfit =
        some (round2
          ((outcomes.map (fun o => (substDaily o).totalProfit.getD 0)).sum +
           (((outcomes.map (fun o => pickDailyRecords (substDaily o))).flatten.map
              profitContribution)).sum)) := by
    intro outcomes
    constructor
    · simp only [getDataDailyDefaultMerge, foldl_append_pick, List.nil_append, List.map_map]
      rfl
    · simp only [getDataDailyDefaultMerge, foldl_append_pick, List.nil_append,
        foldl_add_rat, List.map_map]
      rw [zero_add]
      rfl
  refine ⟨hgen, by decide, ?_⟩
  rw [(hgen exMergeOutcomes).2]
  have h1 : (exMergeOutcomes.map (fun o => (substDaily o).totalProfit.getD 0)).sum = 0 := by
    simp [exMergeOutcomes, substDaily]
  have h2 : ((exMergeOutcomes.map (fun o => pickDailyRecords (substDaily o))).flatten.map
      profitContribution) = [10, 5, -3, 8] := by decide
  rw [h1, h2]
  norm_num [round2, round_eq]

/-! ## getGainForPeriod default-account fan-out (service lines 1194-1310) -/

/-- The shape of one `get-gain` response as `extractGainValue` probes
it: top-level `gain`, `data.gain`, top-level `value`, `data.value`, or
the `gain` of the first item when the response is an array. -/
structure GainResponse where
  error : Bool := false
  message : Option String := none
  gain : Option Rat := none
  dataGain : Option Rat := none
  value : Option Rat := none
  dataValue : Option Rat := none
  arrayFirstGain : Option Rat := none
deriving DecidableEq, Repr

/-- `extractGainValue`: ordered probing with default 0. -/
def extractGainValue (r : GainResponse) : Rat :=
  match r.gain with
  | some v => v
  | none =>
    match r.dataGain with
    | some v => v
    | none =>
      match r.value with
      | some v => v
      | none =>
        match r.dataValue with
        | some v => v
        | none => r.arrayFirstGain.getD 0

/-- The `.catch` substitution of a failed per-account gain call:
`{ error: false, gain: 0 }`. -/
def gainCatchSub : GainResponse := { error := false, gain := some 0 }

/-- A per-account outcome after the `.catch` handler. -/
def substGain (o : Except HttpError GainResponse) : GainResponse :=
  match o with
  | .ok r => r
  | .error _ => gainCatchSub

/-- The `"default"` branch of `getGainForPeriod`: sum
`extractGainValue` over every substituted response whose `error` flag is
not set. -/
def getGainForPeriodDefault (outcomes : List (Except HttpError GainResponse)) : Rat :=
  (outcomes.map substGain).foldl
    (fun acc r => if r.error then acc else acc + extractGainValue r) 0

/-- Specification view of one per-account outcome: a failed call or an
errored response contributes 0, a successful one its extracted gain. -/
def gainContribution (o : Except HttpError GainResponse) : Rat :=
  match o with
  | .error _ => 0
  | .ok r => if r.error then 0 else extractGainValue r

theorem foldl_gain (rs : List GainResponse) : ∀ a : Rat,
    rs.foldl (fun acc r => if r.error then acc else acc + extractGainValue r) a =
      a + (rs.map (fun r => if r.error then 0 else extractGainValue r)).sum := by
  induction rs with
  | nil => intro a; simp
  | cons r rest ih =>
    intro a
    by_cases hr : r.error = true
    · rw [List.foldl_cons, if_pos hr, ih, List.map_cons, List.sum_cons, if_pos hr]
      ring
    · rw [List.foldl_cons, if_neg hr, ih, List.map_cons, List.sum_cons, if_neg hr]
      ring

theorem gainContribution_eq (o : Except HttpError GainResponse) :
    (if (substGain o).error then 0 else extractGainValue (substGain o)) =
      gainContribution o := by
  cases o with
  | error e => rfl
  | ok r => rfl

/-- C5 (confirmed): in a `"default"` gain fan-out each per-account call
is independently fault-tolerant — the aggregate is always the sum of
the per-account contributions where a failing call contributes 0; with
account 1 failing and account 2 returning gain 50 the sum is 50
(no error), and when every call fails the result is 0, not an error. -/
theorem C5_gain_fanout :
    (∀ outcomes : List (Except HttpError GainResponse),
      getGainForPeriodDefault outcomes = (outcomes.map gainContribution).sum) ∧
    (∀ outcomes : List (Except HttpError GainResponse),
      (∀ o ∈ outcomes, ∃ e, o = Except.error e) →
      getGainForPeriodDefault outcomes = 0) ∧
    getGainForPeriodDefault
      [Except.error ⟨"request timed out", 500⟩,
       Except.ok { gain := some 50 }] = 50 ∧
    getGainForPeriodDefault
      [Except.error ⟨"request timed out", 500⟩,
       Except.error ⟨"connection refused", 500⟩] = 0 := by
  have hgen : ∀ outcomes : List (Except HttpError GainResponse),
      getGainForPeriodDefault outcomes = (outcomes.map gainContribution).sum := by
    intro outcomes
    rw [getGainForPeriodDefault, foldl_gain, zero_add, List.map_map]
    have hfun : ((fun r : GainResponse => if r.error then 0 else extractGainValue r) ∘
        substGain) = gainContribution := funext gainContribution_eq
    rw [hfun]
  refine ⟨hgen, ?_, ?_, ?_⟩
  · intro outcomes hall
    rw [hgen]
    apply List.sum_eq_zero
    intro x hx
    obtain ⟨o, ho, hox⟩ := List.mem_map.mp hx
    obtain ⟨e, he⟩ := hall o ho
    rw [← hox, he]
    rfl
  · rw [hgen]
    simp only [List.map_cons, List.map_nil, List.sum_cons, List.sum_nil]
    norm_num [gainContribution, extractGainValue]
  · rw [hgen]
    simp [gainContribution]

/-- C5 witness: the all-fail clause of `C5_gain_fanout` applied to a
concrete two-failure outcome list. -/
theorem C5_gain_fanout_witness :
    (∀ o ∈ ([Except.error ⟨"boom", 500⟩,
             Except.error ⟨"crash", 500⟩] : List (Except HttpError GainResponse)),
       ∃ e, o = Except.error e) ∧
    getGainForPeriodDefault
      [Except.error ⟨"boom", 500⟩, Except.error ⟨"crash", 500⟩] = 0 := by
  constructor
  · intro o ho
    rcases List.mem_cons.mp ho with rfl | ho2
    · exact ⟨_, rfl⟩
    · rcases List.mem_cons.mp ho2 with rfl | ho3
      · exact ⟨_, rfl⟩
      · cases ho3
  · exact C5_gain_fanout.2.1
      [Except.error ⟨"boom", 500⟩, Except.error ⟨"crash", 500⟩]
      (by
        intro o ho
        rcases List.mem_cons.mp ho with rfl | ho2
        · exact ⟨_, rfl⟩
        · rcases List.mem_cons.mp ho2 with rfl | ho3
          · exact ⟨_, rfl⟩
          · cases ho3)

/-! ## makeAuthenticatedRequest (service lines 265-321)

The two HTTP attempts (original session, refreshed session) and the
login outcome are environment inputs.  `createAndStoreSession` is
deterministic in the environment, so both refresh attempts observe the
same login outcome.  `return this.makeAuthenticatedRequest(...)` is not
awaited in the source, so a failure of the retried call propagates to
the caller without re-entering the enclosing catch. -/

/-- One in-band upstream response body (`error` flag and message). -/
structure RawResp where
  error : Bool := false
  message : Option String := none
deriving DecidableEq, Repr

/-- A thrown error as `isSessionExpiredError` inspects it: message,
HTTP status of `error.response`, and the `error.response.data` body. -/
structure JsError where
  message : String := ""
  respStatus : Option Nat := none
  respDataError : Bool := false
  respDataMessage : Option String := none
deriving DecidableEq, Repr

/-- The session-expiry message patterns of `isSessionExpiredError`. -/
def sessionErrorPatterns : List String :=
  ["invalid session", "session expired", "session not found",
   "unauthorized", "authentication failed"]

/-- `patterns.some(p => msg.toLowerCase().includes(p))`. -/
def containsPattern (msg : String) : Bool :=
  sessionErrorPatterns.any (fun p => jsIncludes (jsToLower msg) p)

/-- `isSessionExpiredError`: message patterns, then the response body's
error flag with a truthy message, then HTTP 401. -/
def isSessionExpiredError (e : JsError) : Bool :=
  containsPattern e.message ||
  (e.respDataError &&
    (match e.respDataMessage with
     | some m => !m.data.isEmpty && containsPattern m
     | none => false)) ||
  (e.respStatus == some 401)

/-- The outcome of one HTTP attempt: a delivered response body or a
thrown error. -/
inductive Attempt where
  | ok (resp : RawResp)
  | thrown (e : JsError)
deriving DecidableEq, Repr

/-- Environment of one logical `makeAuthenticatedRequest` call. -/
structure ReqEnv where
  firstAttempt : Attempt
  retryAttempt : Attempt
  loginResult : Except HttpError String
deriving DecidableEq, Repr

/-- The in-band expiry test
`response.data?.error && isSessionExpiredError({ message: response.data.message })`. -/
def inBandExpired (r : RawResp) : Bool :=
  r.error && isSessionExpiredError { message := r.message.getD "" }

/-- The behaviour of an invocation with `retryOnExpiration = false`:
a delivered body is returned as-is (even when it carries an expiry
signal) and a thrown error is wrapped into the fatal 500 error. -/
def requestNoRetry : Attempt → Except HttpError RawResp
  | .ok resp => .ok resp
  | .thrown e => .error ⟨"Myfxbook API request failed: " ++ e.message, 500⟩

/-- `makeAuthenticatedRequest` with the default `retryOnExpiration =
true`, returning the result together with the number of login calls and
the number of endpoint attempts.  A login failure during the in-try
refresh is caught by the enclosing catch, whose expiry test matches the
login error message and triggers one more (deterministically identical)
refresh before the error propagates. -/
def makeAuthenticatedRequest (env : ReqEnv) : Except HttpError RawResp × Nat × Nat :=
  match env.firstAttempt with
  | .ok resp =>
    if inBandExpired resp then
      match env.loginResult with
      | .ok _ => (requestNoRetry env.retryAttempt, 1, 2)
      | .error e =>
        if isSessionExpiredError { message := e.message } then
          (.error e, 2, 1)
        else
          (.error ⟨"Myfxbook API request failed: " ++ e.message, 500⟩, 1, 1)
    else (.ok resp, 0, 1)
  | .thrown e =>
    if isSessionExpiredError e then
      match env.loginResult with
      | .ok _ => (requestNoRetry env.retryAttempt, 1, 2)
      | .error e2 => (.error e2, 1, 1)
    else (.error ⟨"Myfxbook API request failed: " ++ e.message, 500⟩, 0, 1)

/-- Whether the first attempt carries a session-expiry signal
(in-band or thrown). -/
def firstExpirySignal (env : ReqEnv) : Bool :=
  match env.firstAttempt with
  | .ok resp => inBandExpired resp
  | .thrown e => isSessionExpiredError e

/-- C6 (amended): the original request is attempted at most twice; when
a retry happens the final result is exactly the no-retry processing of
the retried attempt, so an expiry signal on the retried call never
triggers a further refresh or retry; without an expiry signal on the
first attempt there is no refresh at all; with a successful login at
most one refresh happens; and a second thrown failure propagates as the
fatal wrapped 500 error — while a second in-band expiry response is
returned to the caller as the errored payload rather than raised. -/
theorem C6_retry_cap :
    (∀ env : ReqEnv, (makeAuthenticatedRequest env).2.2 ≤ 2) ∧
    (∀ env : ReqEnv, (makeAuthenticatedRequest env).2.2 = 2 →
      (makeAuthenticatedRequest env).1 = requestNoRetry env.retryAttempt) ∧
    (∀ env : ReqEnv, firstExpirySignal env = false →
      (makeAuthenticatedRequest env).2.2 = 1 ∧ (makeAuthenticatedRequest env).2.1 = 0) ∧
    (∀ env : ReqEnv, ∀ s : String, env.loginResult = Except.ok s →
      (makeAuthenticatedRequest env).2.1 ≤ 1) ∧
    (∀ env : ReqEnv, ∀ e : JsError, firstExpirySignal env = true →
      (∃ s, env.loginResult = Except.ok s) →
      env.retryAttempt = Attempt.thrown e →
      (makeAuthenticatedRequest env).1 =
        Except.error ⟨"Myfxbook API request failed: " ++ e.message, 500⟩) := by
  refine ⟨?_, ?_, ?_, ?_, ?_⟩
  · intro env
    rcases env with ⟨fa, ra, lr⟩
    cases fa with
    | ok resp =>
      by_cases hib : inBandExpired resp = true
      · cases lr with
        | ok s => simp [makeAuthenticatedRequest, hib]
        | error e =>
          by_cases hse : isSessionExpiredError { message := e.message } = true <;>
            simp [makeAuthenticatedRequest, hib, hse]
      · simp [makeAuthenticatedRequest, hib]
    | thrown e =>
      by_cases hse : isSessionExpiredError e = true
      · cases lr with
        | ok s => simp [makeAuthenticatedRequest, hse]
        | error e2 => simp [makeAuthenticatedRequest, hse]
      · simp [makeAuthenticatedRequest, hse]
  · intro env h2
    rcases env with ⟨fa, ra, lr⟩
    cases fa with
    | ok resp =>
      by_cases hib : inBandExpired resp = true
      · cases lr with
        | ok s => simp [makeAuthenticatedRequest, hib]
        | error e =>
          by_cases hse : isSessionExpiredError { message := e.message } = true <;>
            simp [makeAuthenticatedRequest, hib, hse] at h2
      · simp [makeAuthenticatedRequest, hib] at h2
    | thrown e =>
      by_cases hse : isSessionExpiredError e = true
      · cases lr with
        | ok s => simp [makeAuthenticatedRequest, hse]
        | error e2 => simp [makeAuthenticatedRequest, hse] at h2
      · simp [makeAuthenticatedRequest, hse] at h2
  · intro env hsig
    rcases env with ⟨fa, ra, lr⟩
    cases fa with
    | ok resp =>
      have hib : inBandExpired resp = false := by simpa [firstExpirySignal] using hsig
      simp [makeAuthenticatedRequest, hib]
    | thrown e =>
      have hse : isSessionExpiredError e = false := by simpa [firstExpirySignal] using hsig
      simp [makeAuthenticatedRequest, hse]
  · intro env s hlr
    rcases env with ⟨fa, ra, lr⟩
    cases hlr
    cases fa with
    | ok resp =>
      by_cases hib : inBandExpired resp = true <;> simp [makeAuthenticatedRequest, hib]
    | thrown e =>
      by_cases hse : isSessionExpiredError e = true <;> simp [makeAuthenticatedRequest, hse]
  · intro env e hsig hok hra
    rcases env with ⟨fa, ra, lr⟩
    obtain ⟨s, hs⟩ := hok
    cases hs
    cases hra
    cases fa with
    | ok resp =>
      have hib : inBandExpired resp = true := by simpa [firstExpirySignal] using hsig
      simp [makeAuthenticatedRequest, hib, requestNoRetry]
    | thrown e1 =>
      have hse : isSessionExpiredError e1 = true := by simpa [firstExpirySignal] using hsig
      simp [makeAuthenticatedRequest, hse, requestNoRetry]

/-- Both attempts deliver the same in-band session-expiry body and the
refresh login succeeds. -/
def envDoubleInBand : ReqEnv :=
  { firstAttempt := Attempt.ok { error := true, message := some "Invalid session" },
    retryAttempt := Attempt.ok { error := true, message := some "Invalid session" },
    loginResult := Except.ok "fresh-session" }

/-- C6 counterexample: the first in-band expiry triggers the one
refresh and retry, the retried call signals expiry again, yet
`makeAuthenticatedRequest` returns the errored payload as a success
value — the second failure does not propagate as a fatal error, contrary
to the claim. -/
theorem C6_second_failure_counterexample :
    firstExpirySignal envDoubleInBand = true ∧
    makeAuthenticatedRequest envDoubleInBand =
      (Except.ok { error := true, message := some "Invalid session" }, 1, 2) := by
  constructor
  · decide
  · decide

/-- Both attempts throw session-expiry errors. -/
def envDoubleThrown : ReqEnv :=
  { firstAttempt := Attempt.thrown { message := "session expired" },
    retryAttempt := Attempt.thrown { message := "session expired" },
    loginResult := Except.ok "fresh-session" }

/-- C6 witness: the fatal clause of `C6_retry_cap` at a concrete
environment where both attempts throw expiry errors. -/
theorem C6_retry_cap_witness :
    makeAuthenticatedRequest envDoubleThrown =
      (Except.error ⟨"Myfxbook API request failed: session expired", 500⟩, 1, 2) := by
  have h := C6_retry_cap.2.2.2.2 envDoubleThrown { message := "session expired" }
    (by decide) ⟨"fresh-session", rfl⟩ rfl
  have h2 : (makeAuthenticatedRequest envDoubleThrown).2 = (1, 2) := by decide
  exact (@Prod.ext_iff _ _ (makeAuthenticatedRequest envDoubleThrown)
    (Except.error ⟨"Myfxbook API request failed: session expired", 500⟩, 1, 2)).mpr ⟨h, h2⟩

/-! ## Session resolution and the public operations (C1, C2)

The cache store and the net outcomes of upstream calls are environment
inputs; each operation returns its result together with the list of
upstream calls it performed (credential login or endpoint call). -/

/-- The session slot of the cache plus the outcome of a credential
login, which `createAndStoreSession` would perform on a miss. -/
structure SessionEnv where
  cachedSession : Option String := none
  loginResult : Except HttpError String := Except.ok "session"
deriving DecidableEq, Repr

/-- `getOrCreateSession`: use the cached session without validation, or
log in and store the new session. -/
def getOrCreateSession (env : SessionEnv) : Except HttpError String × List UpCall :=
  match env.cachedSession with
  | some s => (Except.ok s, [])
  | none =>
    match env.loginResult with
    | .ok s => (.ok s, [UpCall.loginCall])
    | .error e => (.error e, [UpCall.loginCall])

/-- `resolveSession`: a truthy explicit token is returned unchanged
(the `validateSession` inside the truthy branch cannot fire); a falsy
one falls through to `getOrCreateSession`. -/
def resolveSession (env : SessionEnv) (explicit : Option String) :
    Except HttpError String × List UpCall :=
  match explicit with
  | some s => if s.data.isEmpty then getOrCreateSession env else (.ok s, [])
  | none => getOrCreateSession env

/-- `isDefaultAccount`: case-insensitive match against "default". -/
def isDefaultAccount (accountId : String) : Bool :=
  jsToLower accountId == "default"

/-- The validation error of `validateAccountId`. -/
def accountIdRequired : HttpError := ⟨"Account ID is required", 400⟩

/-! ### getMyAccounts (service lines 324-394) -/

/-- One upstream account; only the fields the listing touches. -/
structure Account where
  id : String
  name : String
  balance : Rat := 0
deriving DecidableEq, Repr

/-- The `get-my-accounts` response body. -/
structure AccountsResponse where
  error : Bool := false
  message : Option String := none
  accounts : List Account := []
deriving DecidableEq, Repr

/-- Environment of one `getMyAccounts` call. -/
structure AccountsEnv where
  session : SessionEnv
  cachedAccounts : Option (List Account) := none
  apiOutcome : Except HttpError AccountsResponse
deriving DecidableEq, Repr

/-- Modelled from the spec: the synthetic DefaultAccount sentinel from
the missing `src/constant/constant` module; the spec fixes `id =
"default"` with placeholder display fields. -/
def DEFAULT_ACCOUNT : Account := { id := "default", name := "Default", balance := 0 }

/-- The low-risk display-name override of the listing. -/
def lowRiskOverride (lowRisk : List String) (item : Account) : Account :=
  if lowRisk.contains item.id then { item with name := "FREQ > LOW RISK" } else item

/-- `getMyAccounts`: resolve the session, return the cached value on a
hit, otherwise fetch, filter to the configured EXNESS ids, append the
default sentinel, apply the low-risk name overrides — and cache only
`filteredAccounts` while returning `finalResult`.  The returned triple
is (result, cache write, upstream calls). -/
def getMyAccounts (exness lowRisk : List String) (defaultAccount : Account)
    (env : AccountsEnv) (explicit : Option String) :
    Except HttpError (List Account) × Option (List Account) × List UpCall :=
  match resolveSession env.session explicit with
  | (.error e, tr) => (.error e, none, tr)
  | (.ok _s, tr) =>
    match env.cachedAccounts with
    | some c => (.ok c, none, tr)
    | none =>
      match env.apiOutcome with
      | .error e => (.error e, none, tr ++ [UpCall.apiCall "get-my-accounts.json"])
      | .ok resp =>
        let accounts := resp.accounts
        let filteredAccounts := accounts.filter (fun item => exness.contains item.id)
        let finalResult :=
          (filteredAccounts ++ [defaultAccount]).map (lowRiskOverride lowRisk)
        if resp.error then
          (.error ⟨"Failed to fetch accounts: " ++
              resp.message.getD "Failed to fetch accounts", 400⟩,
           none, tr ++ [UpCall.apiCall "get-my-accounts.json"])
        else
          (.ok finalResult, some filteredAccounts,
           tr ++ [UpCall.apiCall "get-my-accounts.json"])

/-! ### getHistory (service lines 512-607) -/

/-- The `get-history` response body as the combine loop probes it
(`asArray` models a response that is itself an array). -/
structure HistResponse where
  error : Bool := false
  message : Option String := none
  history : Option (List HistItem) := none
  data : Option (List HistItem) := none
  trades : Option (List HistItem) := none
  asArray : Option (List HistItem) := none
deriving DecidableEq, Repr

/-- The `.catch` substitution of a failed per-account history call. -/
def histCatchSub : HistResponse :=
  { history := some [], data := some [], trades := some [] }

/-- Environment of one `getHistory` call. -/
structure HistoryEnv where
  session : SessionEnv
  cachedHistory : Option HistResponse := none
  exnessIds : List String := []
  perAccount : List (Except HttpError HistResponse) := []
  single : Except HttpError HistResponse := Except.ok {}
deriving DecidableEq, Repr

/-- `getHistory`: session resolution happens before the accountId
validation; then cache check, then either the default fan-out combine
or the single-account call. -/
def getHistory (env : HistoryEnv) (explicit : Option String) (accountId : String) :
    Except HttpError HistResponse × List UpCall :=
  match resolveSession env.session explicit with
  | (.error e, tr) => (.error e, tr)
  | (.ok _s, tr) =>
    if accountId.data.isEmpty then (.error accountIdRequired, tr)
    else
      match env.cachedHistory with
      | some c => (.ok c, tr)
      | none =>
        if isDefaultAccount accountId then
          let allResponses := env.perAccount.map
            (fun o => match o with | .ok r => r | .error _ => histCatchSub)
          let calls := env.exnessIds.map (fun _ => UpCall.apiCall "get-history.json")
          let combined := allResponses.foldl
            (fun (acc : List HistItem × List HistItem × List HistItem) r =>
              ((acc.1 ++ r.history.getD []) ++ r.asArray.getD [],
               acc.2.1 ++ r.data.getD [],
               acc.2.2 ++ r.trades.getD [])) ([], [], [])
          let combinedResponse : HistResponse :=
            { allResponses.head?.getD {} with
                history := if combined.1.length > 0 then some combined.1 else none,
                data := if combined.2.1.length > 0 then some combined.2.1 else none,
                trades := if combined.2.2.length > 0 then some combined.2.2 else none }
          (.ok combinedResponse, tr ++ calls)
        else
          match env.single with
          | .error e => (.error e, tr ++ [UpCall.apiCall "get-history.json"])
          | .ok r =>
            if r.error then
              (.error ⟨"Failed to fetch history: " ++
                  r.message.getD "Failed to fetch history", 400⟩,
               tr ++ [UpCall.apiCall "get-history.json"])
            else (.ok r, tr ++ [UpCall.apiCall "get-history.json"])

/-! ### getDataDaily (service lines 993-1155) -/

/-- Environment of one `getDataDaily` call. -/
structure DataDailyEnv where
  session : SessionEnv
  cachedDaily : Option DailyResponse := none
  exnessIds : List String := []
  perAccount : List (Except HttpError DailyResponse) := []
  single : Except HttpError DailyResponse := Except.ok {}
deriving DecidableEq, Repr

/-- The single-account totalProfit accumulation: `recordArr[0]` without
an array check, `profit` falling back to `profite`. -/
def singleDailyProfitStep (acc : Rat) (it : DailyItem) : Rat :=
  match unwrapIndexZero it with
  | none => acc
  | some r =>
    match r.profit with
    | some v => acc + v
    | none =>
      match r.profite with
      | some v => acc + v
      | none => acc

/-- `getDataDaily`: session resolution happens before the accountId
validation; then cache check, then either the default merge
(`getDataDailyDefaultMerge`) or the single-account call with its
totalProfit summation. -/
def getDataDaily (env : DataDailyEnv) (explicit : Option String)
    (accountId _startDate _endDate : String) :
    Except HttpError DailyResponse × List UpCall :=
  match resolveSession env.session explicit with
  | (.error e, tr) => (.error e, tr)
  | (.ok _s, tr) =>
    if accountId.data.isEmpty then (.error accountIdRequired, tr)
    else
      match env.cachedDaily with
      | some c => (.ok c, tr)
      | none =>
        if isDefaultAccount accountId then
          (.ok (getDataDailyDefaultMerge env.perAccount),
           tr ++ env.exnessIds.map (fun _ => UpCall.apiCall "get-data-daily.json"))
        else
          match env.single with
          | .error e => (.error e, tr ++ [UpCall.apiCall "get-data-daily.json"])
          | .ok r =>
            if r.error then
              (.error ⟨"Failed to fetch daily data: " ++
                  r.message.getD "Failed to fetch daily data", 400⟩,
               tr ++ [UpCall.apiCall "get-data-daily.json"])
            else
              let records := r.dataDaily.getD []
              let totalProfit := records.foldl singleDailyProfitStep 0
              (.ok { r with totalProfit := some (round2 totalProfit) },
               tr ++ [UpCall.apiCall "get-data-daily.json"])

/-! ## Claim theorems: C1 and C2 -/

theorem lowRiskOverride_id (lowRisk : List String) (a : Account) :
    (lowRiskOverride lowRisk a).id = a.id := by
  unfold lowRiskOverride
  split <;> rfl

/-- C1 (amended): on a cache miss the accounts listing returns the
filtered accounts with the synthetic default entry appended and the
low-risk name overrides applied, but it caches only the filtered raw
accounts; a second call inside the cache window returns that cached
filtered list — which contains one fewer entry, lacks the default
sentinel, and is therefore not byte-identical to the first result —
while performing no upstream call. -/
theorem C1_accounts_cache_divergence :
    ∀ (exness lowRisk : List String) (env : AccountsEnv) (resp : AccountsResponse)
      (s : String),
      env.session.cachedSession = some s →
      env.cachedAccounts = none →
      env.apiOutcome = Except.ok resp →
      resp.error = false →
      (let filtered := resp.accounts.filter (fun a => exness.contains a.id)
       let final := (filtered ++ [DEFAULT_ACCOUNT]).map (lowRiskOverride lowRisk)
       (getMyAccounts exness lowRisk DEFAULT_ACCOUNT env none =
         (Except.ok final, some filtered, [UpCall.apiCall "get-my-accounts.json"])) ∧
       "default" ∈ final.map (fun a => a.id) ∧
       (getMyAccounts exness lowRisk DEFAULT_ACCOUNT { env with cachedAccounts := some filtered } none =
         (Except.ok filtered, none, [])) ∧
       final ≠ filtered) := by
  intro exness lowRisk env resp s hsess hcache hapi herr
  have hres : resolveSession env.session none = (Except.ok s, []) := by
    simp [resolveSession, getOrCreateSession, hsess]
  refine ⟨?_, ?_, ?_, ?_⟩
  · simp [getMyAccounts, hres, hcache, hapi, herr]
  · have hids : ((resp.accounts.filter (fun a => exness.contains a.id) ++
        [DEFAULT_ACCOUNT]).map (lowRiskOverride lowRisk)).map (fun a => a.id) =
        (resp.accounts.filter (fun a => exness.contains a.id) ++
          [DEFAULT_ACCOUNT]).map (fun a => a.id) := by
      rw [List.map_map]
      exact List.map_congr_left (fun a _ => lowRiskOverride_id lowRisk a)
    rw [hids]
    refine List.mem_map.mpr ⟨DEFAULT_ACCOUNT, ?_, rfl⟩
    exact List.mem_append_right _ (List.mem_singleton.mpr rfl)
  · simp [getMyAccounts, hres]
  · intro heq
    have hlen := congrArg List.length heq
    simp at hlen

/-- One EXNESS account upstream, the session cached, cache miss. -/
def envAccounts : AccountsEnv :=
  { session := { cachedSession := some "sess", loginResult := Except.ok "sess" },
    cachedAccounts := none,
    apiOutcome := Except.ok { accounts := [{ id := "1", name := "Acc One", balance := 100 }] } }

/-- `envAccounts` after the first call's cache write. -/
def envAccountsCached : AccountsEnv :=
  { envAccounts with cachedAccounts := some [{ id := "1", name := "Acc One", balance := 100 }] }

/-- C1 counterexample: with account "1" configured as EXNESS and
low-risk, the first call returns the overridden account plus the
default sentinel, but the value cached is the raw filtered list; the
second call returns that cached list, which differs from the first
result and contains no "default" entry — refuting byte-identical
results and the unconditional presence of the default entry. -/
theorem C1_cached_result_counterexample :
    getMyAccounts ["1"] ["1"] DEFAULT_ACCOUNT envAccounts none =
      (Except.ok [{ id := "1", name := "FREQ > LOW RISK", balance := 100 },
                  { id := "default", name := "Default", balance := 0 }],
       some [{ id := "1", name := "Acc One", balance := 100 }],
       [UpCall.apiCall "get-my-accounts.json"]) ∧
    (getMyAccounts ["1"] ["1"] DEFAULT_ACCOUNT envAccounts none).2.1 =
      envAccountsCached.cachedAccounts ∧
    getMyAccounts ["1"] ["1"] DEFAULT_ACCOUNT envAccountsCached none =
      (Except.ok [{ id := "1", name := "Acc One", balance := 100 }], none, []) ∧
    (getMyAccounts ["1"] ["1"] DEFAULT_ACCOUNT envAccounts none).1 ≠
      (getMyAccounts ["1"] ["1"] DEFAULT_ACCOUNT envAccountsCached none).1 ∧
    "default" ∉ ([({ id := "1", name := "Acc One", balance := 100 } : Account)].map
      (fun a => a.id)) := by
  refine ⟨by decide, by decide, by decide, by decide, by decide⟩

/-- C1 witness: `C1_accounts_cache_divergence` applied to the concrete
environment. -/
theorem C1_accounts_cache_witness :
    getMyAccounts ["1"] ["1"] DEFAULT_ACCOUNT { envAccounts with cachedAccounts := some ([({ id := "1", name := "Acc One", balance := 100 } : Account)].filter (fun a => ["1"].contains a.id)) } none =
      (Except.ok ([({ id := "1", name := "Acc One", balance := 100 } : Account)].filter
        (fun a => ["1"].contains a.id)), none, []) :=
  (C1_accounts_cache_divergence ["1"] ["1"] envAccounts
    { accounts := [{ id := "1", name := "Acc One", balance := 100 }] } "sess"
    rfl rfl rfl rfl).2.2.1

/-- C2 (amended): an empty accountId makes `getHistory` and
`getDataDaily` fail with the validation error before any endpoint call,
but session resolution runs first: with a cached session no upstream
call at all is made, while without one (and a succeeding login) exactly
one upstream login call precedes the validation error. -/
theorem C2_validation_after_session :
    (∀ (env : HistoryEnv) (s : String),
      env.session.cachedSession = some s →
      getHistory env none "" = (Except.error accountIdRequired, [])) ∧
    (∀ (env : HistoryEnv) (s : String),
      env.session.cachedSession = none → env.session.loginResult = Except.ok s →
      getHistory env none "" = (Except.error accountIdRequired, [UpCall.loginCall])) ∧
    (∀ (env : DataDailyEnv) (s sd ed : String),
      env.session.cachedSession = some s →
      getDataDaily env none "" sd ed = (Except.error accountIdRequired, [])) ∧
    (∀ (env : DataDailyEnv) (s sd ed : String),
      env.session.cachedSession = none → env.session.loginResult = Except.ok s →
      getDataDaily env none "" sd ed =
        (Except.error accountIdRequired, [UpCall.loginCall])) := by
  refine ⟨?_, ?_, ?_, ?_⟩
  · intro env s hs
    simp [getHistory, resolveSession, getOrCreateSession, hs]
  · intro env s hs hl
    simp [getHistory, resolveSession, getOrCreateSession, hs, hl]
  · intro env s sd ed hs
    simp [getDataDaily, resolveSession, getOrCreateSession, hs]
  · intro env s sd ed hs hl
    simp [getDataDaily, resolveSession, getOrCreateSession, hs, hl]

/-- No cached session, login succeeds. -/
def envHistoryMiss : HistoryEnv :=
  { session := { cachedSession := none, loginResult := Except.ok "fresh" } }

/-- C2 counterexample: calling `getHistory` with an empty accountId and
no cached session performs an upstream login call before failing with
the validation error — the claim says no upstream call of any kind
(including login) may happen. -/
theorem C2_login_before_validation_counterexample :
    getHistory envHistoryMiss none "" =
      (Except.error accountIdRequired, [UpCall.loginCall]) ∧
    [UpCall.loginCall] ≠ ([] : List UpCall) := by
  refine ⟨by decide, by decide⟩

/-- A cached session. -/
def envHistoryHit : HistoryEnv :=
  { session := { cachedSession := some "tok", loginResult := Except.ok "tok" } }

/-- C2 witness: the cached-session clause of
`C2_validation_after_session` at a concrete environment. -/
theorem C2_validation_witness :
    getHistory envHistoryHit none "" = (Except.error accountIdRequired, []) :=
  C2_validation_after_session.1 envHistoryHit "tok" rfl

end Frequency
